import Mathlib

/-!
Verification of the Bytebase PostgreSQL driver, migration history store,
inbox summary and GitLab webhook pipeline, via a shallow embedding of the
Go source into Lean.  Strings are modelled on `String` (lists of
characters), database effects as explicit effect lists, and fallible SQL
execution through Boolean / `Except` oracles.
-/

namespace Bytebase

/-! ## Go string primitives

Faithful executable models of the `strings`/`regexp`/`path/filepath`
functions that the source uses, implemented by structural recursion over
the character list of a `String`. -/

/-- Model of a prefix test on character lists (Go `strings.HasPrefix`). -/
def listStarts : List Char → List Char → Bool
  | [], _ => true
  | _ :: _, [] => false
  | p :: ps, c :: cs => p = c && listStarts ps cs

/-- Model of Go `strings.HasPrefix s pre`. -/
def strStarts (s pre : String) : Bool :=
  listStarts pre.data s.data

/-- Substring test on character lists (Go `strings.Contains`). -/
def listHas (sub : List Char) : List Char → Bool
  | [] => sub.isEmpty
  | c :: cs => listStarts sub (c :: cs) || listHas sub cs

/-- Model of Go `strings.Contains s sub`. -/
def strHas (s sub : String) : Bool :=
  listHas sub.data s.data

/-- Splitting on a single separator character, as Go `strings.Split` with a
one-character separator: separators delimit (possibly empty) fields. -/
def splitCharAux (sep : Char) : List Char → List Char → List (List Char)
  | [], acc => [acc.reverse]
  | c :: cs, acc =>
    if c = sep then acc.reverse :: splitCharAux sep cs []
    else splitCharAux sep cs (c :: acc)

/-- Model of Go `strings.Split s (String.singleton sep)`. -/
def splitOnChar (sep : Char) (s : String) : List String :=
  (splitCharAux sep s.data []).map (fun l => ⟨l⟩)

/-- Whitespace characters recognised by Go `unicode.IsSpace` (the ones a
DSN or SQL script can realistically contain). -/
def isGoSpace (c : Char) : Bool :=
  c = ' ' || c = '\t' || c = '\n' || c = '\x0B' || c = '\x0C' || c = '\r' ||
    c = '\u0085' || c = ' '

/-- Splitting into whitespace-separated fields (Go `strings.Fields`):
maximal runs of non-space characters. -/
def fieldsAux : List Char → List Char → List (List Char)
  | [], acc => if acc.isEmpty then [] else [acc.reverse]
  | c :: cs, acc =>
    if isGoSpace c then
      if acc.isEmpty then fieldsAux cs []
      else acc.reverse :: fieldsAux cs []
    else fieldsAux cs (c :: acc)

/-- Model of Go `strings.Fields`. -/
def goFields (s : String) : List String :=
  (fieldsAux s.data []).map (fun l => ⟨l⟩)

/-- Model of Go `strings.Join l sep`. -/
def joinWith (sep : String) : List String → String
  | [] => ""
  | [x] => x
  | x :: y :: rest => x ++ sep ++ joinWith sep (y :: rest)

/-- Model of Go `strings.TrimLeft s cutset`: drop leading characters that
occur in `cutset`. -/
def goTrimLeftCut (s cutset : String) : String :=
  ⟨s.data.dropWhile (fun c => cutset.data.contains c)⟩

/-- Model of Go `strings.TrimRight s cutset`: drop trailing characters that
occur in `cutset`. -/
def goTrimRightCut (s cutset : String) : String :=
  ⟨(s.data.reverse.dropWhile (fun c => cutset.data.contains c)).reverse⟩

/-- Model of Go `strings.TrimPrefix s pre`. -/
def goTrimStart (s pre : String) : String :=
  if listStarts pre.data s.data then ⟨s.data.drop pre.data.length⟩ else s

/-- Decidable membership in a list of strings (the lookup the source
performs against its `reserved` keyword map). -/
def memStr (x : String) : List String → Bool
  | [] => false
  | y :: ys => if x = y then true else memStr x ys

/-- Model of Go `strings.ToUpper` (ASCII letters; identifier characters and
keywords are ASCII). -/
def upperStr (s : String) : String :=
  ⟨s.data.map Char.toUpper⟩

/-- Doubling of embedded double quotes, Go
`strings.ReplaceAll s "\"" "\"\""`. -/
def escQuotes : List Char → List Char
  | [] => []
  | c :: cs => if c = '"' then '"' :: '"' :: escQuotes cs else c :: escQuotes cs

/-- The quoted form produced by the source:
`fmt.Sprintf("\"%s\"", strings.ReplaceAll(s, "\"", "\"\""))`. -/
def wrapQuoted (s : String) : String :=
  "\"" ++ (⟨escQuotes s.data⟩ : String) ++ "\""

/-! ## quoteIdentifier (pg driver) -/

/-- First character allowed by the `ident` pattern
`(?i)^[a-z_][a-z0-9_$]*$`. -/
def isIdentStart (c : Char) : Bool :=
  ('a' ≤ c && c ≤ 'z') || ('A' ≤ c && c ≤ 'Z') || c = '_'

/-- Subsequent characters allowed by the `ident` pattern. -/
def isIdentRest (c : Char) : Bool :=
  isIdentStart c || ('0' ≤ c && c ≤ '9') || c = '$'

/-- Model of `ident.MatchString` for
`ident = regexp.MustCompile((?i)^[a-z_][a-z0-9_$]*$)`. -/
def identMatch (s : String) : Bool :=
  match s.data with
  | [] => false
  | c :: rest => isIdentStart c && rest.all isIdentRest

/-- Modelled from the spec: the fixed reserved-keyword set (`reserved` in
the pg driver) is not included under `src/`; the spec requires a fixed set
with case-insensitive lookup, and its example demands that `SELECT` be a
member.  We use a representative fixed set of standard SQL reserved
words, all stored uppercase as the lookup through `strings.ToUpper`
requires. -/
def reservedKeywords : List String :=
  ["ALL", "AND", "ANY", "AS", "ASC", "BETWEEN", "BY", "CASE", "CHECK",
   "COLUMN", "CONSTRAINT", "CREATE", "DEFAULT", "DELETE", "DESC",
   "DISTINCT", "DROP", "ELSE", "EXISTS", "FALSE", "FOR", "FOREIGN",
   "FROM", "GROUP", "HAVING", "IN", "INSERT", "INTO", "IS", "JOIN",
   "LIKE", "LIMIT", "NOT", "NULL", "ON", "OR", "ORDER", "PRIMARY",
   "REFERENCES", "SELECT", "SET", "TABLE", "THEN", "TO", "TRUE",
   "UNION", "UNIQUE", "UPDATE", "VALUES", "WHERE", "WITH"]

/-- The lookup `reserved[strings.ToUpper(s)]` performed by the source. -/
def reservedLookup (s : String) : Bool :=
  memStr s reservedKeywords

/-- Model of `quoteIdentifier` in the pg driver, keeping the source's
sequential structure: start with `quote := false`, set it when the
uppercased string is a reserved keyword, set it when the `ident` pattern
does not match, and finally wrap-and-double-quote exactly when set. -/
def quoteIdentifier (s : String) : String :=
  let quote := false
  let quote := if reservedLookup (upperStr s) then true else quote
  let quote := if !(identMatch s) then true else quote
  if quote then wrapQuoted s else s

/-! ### Helper lemmas for quoteIdentifier -/

theorem quoteIdentifier_eq (s : String) :
    quoteIdentifier s =
      if reservedLookup (upperStr s) || !(identMatch s) then wrapQuoted s
      else s := by
  unfold quoteIdentifier
  cases h1 : reservedLookup (upperStr s) <;> cases h2 : identMatch s <;>
    simp [h1, h2]

theorem escQuotes_length (l : List Char) :
    l.length ≤ (escQuotes l).length := by
  induction l with
  | nil => simp [escQuotes]
  | cons c cs ih =>
    by_cases h : c = '"' <;> simp [escQuotes, h] <;> omega

theorem wrapQuoted_data (s : String) :
    (wrapQuoted s).data = '"' :: (escQuotes s.data ++ ['"']) := by
  simp [wrapQuoted, String.append]

theorem wrapQuoted_ne (s : String) : wrapQuoted s ≠ s := by
  intro h
  have hd : (wrapQuoted s).data = s.data := congrArg String.data h
  rw [wrapQuoted_data] at hd
  have hlen := congrArg List.length hd
  simp only [List.length_cons, List.length_append, List.length_singleton]
    at hlen
  have := escQuotes_length s.data
  omega

theorem identMatch_wrapQuoted (s : String) :
    identMatch (wrapQuoted s) = false := by
  unfold identMatch
  rw [wrapQuoted_data]
  simp [isIdentStart]

theorem quoteIdentifier_of_quoted (s : String) :
    quoteIdentifier (wrapQuoted s) = wrapQuoted (wrapQuoted s) := by
  rw [quoteIdentifier_eq, identMatch_wrapQuoted]
  simp

theorem quoteIdentifier_quoted_or_id (s : String) :
    quoteIdentifier s = wrapQuoted s ∨ quoteIdentifier s = s := by
  rw [quoteIdentifier_eq]
  by_cases h : (reservedLookup (upperStr s) || !(identMatch s)) = true
  · left; simp [h]
  · right; simp at h; simp [h]

/-! ## Claim theorems: quoteIdentifier -/

/-- C4: `quoteIdentifier s` wraps `s` in double quotes with embedded
quotes doubled exactly when the uppercased string is in the reserved
keyword set or `s` fails the identifier pattern, and otherwise returns
`s` unchanged; in particular on the spec's three examples. -/
theorem quoteIdentifier_characterization :
    (∀ s : String,
        quoteIdentifier s =
          if reservedLookup (upperStr s) || !(identMatch s) then
            "\"" ++ (⟨escQuotes s.data⟩ : String) ++ "\""
          else s) ∧
    quoteIdentifier "Select" = "\"Select\"" ∧
    quoteIdentifier "plain" = "plain" ∧
    quoteIdentifier "a\"b" = "\"a\"\"b\"" := by
  refine ⟨fun s => quoteIdentifier_eq s, by decide, by decide, by decide⟩

/-- C5 counterexample: `quoteIdentifier` is not idempotent on quoted
outputs.  `"Select"` requires quoting, yet applying `quoteIdentifier` to
the quoted output quotes it a second time. -/
theorem quoteIdentifier_not_idempotent :
    quoteIdentifier "Select" ≠ "Select" ∧
    quoteIdentifier (quoteIdentifier "Select") ≠ quoteIdentifier "Select" := by
  constructor
  · decide
  · decide

/-- C5 amended: for every input that required quoting, applying
`quoteIdentifier` to the output quotes it again (wrapping it in another
layer of doubled quotes), so the result differs from the first output:
`quoteIdentifier` is not idempotent on quoted outputs. -/
theorem quoteIdentifier_requotes (s : String)
    (h : quoteIdentifier s ≠ s) :
    quoteIdentifier (quoteIdentifier s) = wrapQuoted (quoteIdentifier s) ∧
    quoteIdentifier (quoteIdentifier s) ≠ quoteIdentifier s := by
  have hq : quoteIdentifier s = wrapQuoted s := by
    rcases quoteIdentifier_quoted_or_id s with h1 | h1
    · exact h1
    · exact absurd h1 h
  rw [hq]
  refine ⟨quoteIdentifier_of_quoted s, ?_⟩
  rw [quoteIdentifier_of_quoted s]
  exact wrapQuoted_ne (wrapQuoted s)

/-- Witness for C5 amended at the concrete input `"Select"`. -/
theorem quoteIdentifier_requotes_witness :
    quoteIdentifier (quoteIdentifier "Select") =
      wrapQuoted (quoteIdentifier "Select") ∧
    quoteIdentifier (quoteIdentifier "Select") ≠ quoteIdentifier "Select" :=
  quoteIdentifier_requotes "Select" (by decide)

/-! ## guessDSN (pg driver connection discovery)

`sql.Open` and `Ping` are modelled by Boolean oracles over the DSN
string.  Go iterates its DSN key/value map in unspecified order; the
model fixes one order, which none of the claims depend on. -/

/-- Connection parameters handed to `guessDSN`. -/
structure ConnParams where
  host : String
  port : String
  user : String
  password : String
  sslCA : String
  sslCert : String
  sslKey : String

/-- The key/value pairs the source places in its DSN map: host, port,
user, password always; TLS keys only when a root CA is given, client
cert/key only when both are present. -/
def dsnTokens (p : ConnParams) : List (String × String) :=
  [("host", p.host), ("port", p.port), ("user", p.user),
   ("password", p.password)] ++
    (if p.sslCA = "" then []
     else [("sslmode", "verify-ca"), ("sslrootcert", p.sslCA)] ++
       (if p.sslCert != "" && p.sslKey != "" then
         [("sslcert", p.sslCert), ("sslkey", p.sslKey)]
        else []))

/-- The base DSN: `k=v` tokens for the non-empty values, joined by
spaces. -/
def baseDSN (p : ConnParams) : String :=
  joinWith " "
    (((dsnTokens p).filter (fun kv => kv.2 != "")).map
      (fun kv => kv.1 ++ "=" ++ kv.2))

/-- The DSN attempted for one candidate database name: the base DSN,
plus ` dbname=<guess>` when the guess is non-empty. -/
def dsnForGuess (dsn guess : String) : String :=
  if guess = "" then dsn else dsn ++ " dbname=" ++ guess

/-- The candidate list: the given database alone when one is supplied,
otherwise empty (server-level), `bytebase`, `postgres`, `template1`. -/
def guessCandidates (database : String) : List String :=
  if database != "" then [database]
  else ["", "bytebase", "postgres", "template1"]

/-- The source's guessing loop: per candidate, `sql.Open` then `Ping`,
skipping to the next candidate when either fails, returning the first
candidate that passes both. -/
def guessLoop (openOk pingOk : String → Bool) (dsn : String) :
    List String → Option (String × String)
  | [] => none
  | g :: gs =>
    let gd := dsnForGuess dsn g
    if openOk gd then
      if pingOk gd then some (g, gd)
      else guessLoop openOk pingOk dsn gs
    else guessLoop openOk pingOk dsn gs

/-- Model of `guessDSN`: returns the guessed database name and its DSN,
or the source's connection error when every candidate fails. -/
def guessDSN (openOk pingOk : String → Bool) (p : ConnParams)
    (database : String) : Except String (String × String) :=
  let dsn := baseDSN p
  match guessLoop openOk pingOk dsn (guessCandidates database) with
  | some r => .ok r
  | none =>
    if database != "" then
      .error ("cannot connecting \"" ++ database ++
        "\", make sure the connection info is correct and the database exists")
    else
      .error "cannot connecting instance, make sure the connection info is correct"

theorem guessLoop_eq_find (openOk pingOk : String → Bool) (dsn : String)
    (l : List String) :
    guessLoop openOk pingOk dsn l =
      (l.find? (fun g =>
        openOk (dsnForGuess dsn g) && pingOk (dsnForGuess dsn g))).map
        (fun g => (g, dsnForGuess dsn g)) := by
  induction l with
  | nil => simp [guessLoop]
  | cons g gs ih =>
    by_cases ho : openOk (dsnForGuess dsn g) <;>
      by_cases hp : pingOk (dsnForGuess dsn g) <;>
      simp [guessLoop, List.find?, ho, hp, ih]

/-- C3: when no database name is given, the driver attempts, in the exact
order, the server-level DSN then `bytebase`, `postgres`, `template1`,
returning the first candidate whose open-and-ping succeeds and an error
when all fail; when a database name is given, that database is the only
candidate. -/
theorem guessDSN_characterization (openOk pingOk : String → Bool)
    (p : ConnParams) (database : String) :
    guessDSN openOk pingOk p database =
      (let dsn := baseDSN p
       let cands := if database = "" then
           ["", "bytebase", "postgres", "template1"]
         else [database]
       match cands.find? (fun g =>
           openOk (dsnForGuess dsn g) && pingOk (dsnForGuess dsn g)) with
       | some g => .ok (g, dsnForGuess dsn g)
       | none =>
         if database = "" then
           .error "cannot connecting instance, make sure the connection info is correct"
         else
           .error ("cannot connecting \"" ++ database ++
             "\", make sure the connection info is correct and the database exists")) := by
  by_cases hdb : database = ""
  · subst hdb
    simp only [guessDSN, guessCandidates, guessLoop_eq_find]
    cases h : List.find? (fun g =>
        openOk (dsnForGuess (baseDSN p) g) &&
          pingOk (dsnForGuess (baseDSN p) g))
        ["", "bytebase", "postgres", "template1"] <;> simp [h]
  · have hdb' : (database != "") = true := by
      simp [bne_iff_ne, hdb]
    simp only [guessDSN, guessCandidates, guessLoop_eq_find, hdb',
      if_true, if_neg hdb]
    cases h : List.find? (fun g =>
        openOk (dsnForGuess (baseDSN p) g) &&
          pingOk (dsnForGuess (baseDSN p) g)) [database] <;>
      simp [h, hdb]

/-! ## Execute (pg driver statement execution)

The driver's `Execute` partitions the already-split statements (statement
splitting lives in `util.ApplyMultiStatements`, outside this file's
scope: `Execute` is modelled on the list of split statements).  Database
side effects are recorded as an explicit effect list; `ExecContext`
failures come from a Boolean oracle over statement text; `BeginTx` and
connection reopening are modelled as succeeding. -/

/-- An observable database effect of `Execute`. -/
inductive PgEffect where
  /-- A statement executed outside any transaction (`driver.db.ExecContext`). -/
  | execNoTxn (stmt : String)
  /-- The active connection switched to a database (`GetDbConnection`). -/
  | switchConn (dbName : String)
  /-- A committed transaction executing the given statements in order. -/
  | txn (stmts : List String)
deriving Repr, DecidableEq

/-- The driver-and-server state threaded through `Execute`. -/
structure ExecState where
  /-- Names of databases existing on the instance. -/
  databases : List String
  /-- Owner role of each database (`pg_roles` joined with `pg_database`). -/
  owners : List (String × String)
  /-- Database the active connection points at. -/
  currentDb : String
  /-- Committed effects so far, oldest first. -/
  effects : List PgEffect
  /-- Statements deferred to the final transaction (`remainingStmts`). -/
  remaining : List String
deriving Repr, DecidableEq

/-- Model of `getDatabaseInCreateDatabaseStatement`: trim trailing
semicolons, strip the `CREATE DATABASE` keyword, take the first
whitespace-separated token and strip surrounding double quotes. -/
def getDatabaseInCreateDatabaseStatement (stmt : String) :
    Except String String :=
  let raw := goTrimRightCut stmt ";"
  let raw := goTrimStart raw "CREATE DATABASE"
  match goFields raw with
  | [] => .error "database name not found"
  | t :: _ => .ok (goTrimRightCut (goTrimLeftCut t "\"") "\"")

/-- The `CREATE DATABASE ` bucket test of `Execute`. -/
def isCreateDbStmt (s : String) : Bool :=
  strStarts s "CREATE DATABASE "

/-- The `ALTER DATABASE ... OWNER TO ...` bucket test of `Execute`. -/
def isAlterOwnerStmt (s : String) : Bool :=
  strStarts s "ALTER DATABASE" && strHas s " OWNER TO "

/-- The `\connect ` bucket test of `Execute`. -/
def isConnectStmt (s : String) : Bool :=
  strStarts s "\\connect "

/-- A statement belonging to none of the special buckets: it is deferred
to the final transaction. -/
def isRemainingStmt (s : String) : Bool :=
  !(isCreateDbStmt s || isAlterOwnerStmt s || isConnectStmt s)

/-- Dispatch of one already-trimmed statement to its bucket, the body of
the closure `f` that `Execute` passes to `util.ApplyMultiStatements`. -/
def stepTrimmed (fails : String → Bool) (st : ExecState) (stmt : String) :
    Except String ExecState :=
  if isCreateDbStmt stmt then
    match getDatabaseInCreateDatabaseStatement stmt with
    | .error e => .error e
    | .ok name =>
      if memStr name st.databases then .ok st
      else if fails stmt then .error ("failed to execute " ++ stmt)
      else
        .ok { st with databases := st.databases ++ [name],
                      effects := st.effects ++ [.execNoTxn stmt] }
  else if isAlterOwnerStmt stmt then
    if fails stmt then .error ("failed to execute " ++ stmt)
    else .ok { st with effects := st.effects ++ [.execNoTxn stmt] }
  else if isConnectStmt stmt then
    match splitOnChar '"' stmt with
    | [_, name, _] =>
      .ok { st with currentDb := name,
                    effects := st.effects ++ [.switchConn name] }
    | _ => .error ("invalid statement " ++ stmt)
  else .ok { st with remaining := st.remaining ++ [stmt] }

/-- One iteration of the closure `f` that `Execute` passes to
`util.ApplyMultiStatements`: trim the statement with
`strings.TrimLeft(stmt, " \t")`, then dispatch on its bucket. -/
def stepStmt (fails : String → Bool) (st : ExecState) (stmt0 : String) :
    Except String ExecState :=
  stepTrimmed fails st (goTrimLeftCut stmt0 " \t")

/-- Result of running the per-statement loop: the final state, or the
effects committed before the failing statement together with the error. -/
inductive RunResult where
  | ok (st : ExecState)
  | err (effects : List PgEffect) (msg : String)
deriving Repr, DecidableEq

/-- The per-statement loop of `Execute` over the split statements. -/
def runStmts (fails : String → Bool) (st : ExecState) :
    List String → RunResult
  | [] => .ok st
  | s :: rest =>
    match stepStmt fails st s with
    | .ok st1 => runStmts fails st1 rest
    | .error e => .err st.effects e

/-- Model of `getCurrentDatabaseOwner`: the last `pg_roles` row matching
the current database, erroring when absent or empty. -/
def lookupOwner (st : ExecState) : Option String :=
  match st.owners.foldl
      (fun acc kv => if kv.1 = st.currentDb then some kv.2 else acc)
      none with
  | none => none
  | some o => if o = "" then none else some o

/-- The instance-level inputs of `Execute`. -/
structure PgInstance where
  /-- Existing database names. -/
  databases : List String
  /-- Database name to owner role. -/
  owners : List (String × String)
  /-- Database the driver is connected to. -/
  currentDb : String

/-- Initial `ExecState` for an instance. -/
def initState (inst : PgInstance) : ExecState :=
  ⟨inst.databases, inst.owners, inst.currentDb, [], []⟩

/-- Model of `Execute`: run the bucket loop, then, when any statements
remain, execute them in one transaction prefixed by
`SET LOCAL ROLE <owner>`; the transaction commits only when owner
lookup, the role switch and the joined statements all succeed, and is
rolled back (contributing no effect) otherwise.  Returns the committed
effects and the error, if any. -/
def pgExecute (fails : String → Bool) (inst : PgInstance)
    (stmts : List String) : List PgEffect × Option String :=
  match runStmts fails (initState inst) stmts with
  | .err effs e => (effs, some e)
  | .ok st =>
    if st.remaining.isEmpty then (st.effects, none)
    else
      match lookupOwner st with
      | none => (st.effects, some "Owner not found for the current database")
      | some owner =>
        let setRole := "SET LOCAL ROLE " ++ owner
        if fails setRole then (st.effects, some ("failed to execute " ++ setRole))
        else
          let joined := joinWith "\n" st.remaining
          if fails joined then (st.effects, some ("failed to execute " ++ joined))
          else (st.effects ++ [.txn [setRole, joined]], none)

/-! ### Helper lemmas for Execute -/

theorem memStr_iff (x : String) (l : List String) :
    memStr x l = true ↔ x ∈ l := by
  induction l with
  | nil => simp [memStr]
  | cons y ys ih => by_cases h : x = y <;> simp [memStr, h, ih]

/-- An effect producible by the non-transactional part of the loop. -/
def effFromBucket : PgEffect → Prop
  | .execNoTxn s => isCreateDbStmt s = true ∨ isAlterOwnerStmt s = true
  | .switchConn _ => True
  | .txn _ => False

theorem stepTrimmed_ok_cases {fails : String → Bool} {st : ExecState}
    {stmt : String} {st1 : ExecState}
    (hs : stepTrimmed fails st stmt = .ok st1) :
    (∃ name, isCreateDbStmt stmt = true ∧
      getDatabaseInCreateDatabaseStatement stmt = .ok name ∧
      name ∈ st.databases ∧ st1 = st) ∨
    (∃ name, isCreateDbStmt stmt = true ∧
      getDatabaseInCreateDatabaseStatement stmt = .ok name ∧
      ¬ name ∈ st.databases ∧
      st1 = { st with databases := st.databases ++ [name],
                      effects := st.effects ++ [.execNoTxn stmt] }) ∨
    (isCreateDbStmt stmt = false ∧ isAlterOwnerStmt stmt = true ∧
      st1 = { st with effects := st.effects ++ [.execNoTxn stmt] }) ∨
    (isCreateDbStmt stmt = false ∧ isAlterOwnerStmt stmt = false ∧
      isConnectStmt stmt = true ∧
      ∃ a name b, splitOnChar '"' stmt = [a, name, b] ∧
        st1 = { st with currentDb := name,
                        effects := st.effects ++ [.switchConn name] }) ∨
    (isRemainingStmt stmt = true ∧
      st1 = { st with remaining := st.remaining ++ [stmt] }) := by
  unfold stepTrimmed at hs
  by_cases h1 : isCreateDbStmt stmt
  · rw [if_pos h1] at hs
    cases hp : getDatabaseInCreateDatabaseStatement stmt with
    | error e =>
      simp only [hp] at hs
      exact Except.noConfusion hs
    | ok name =>
      simp only [hp] at hs
      by_cases h2 : memStr name st.databases
      · rw [if_pos h2] at hs
        injection hs with h
        exact Or.inl ⟨name, h1, rfl, (memStr_iff _ _).mp h2, h.symm⟩
      · rw [if_neg h2] at hs
        by_cases h3 : fails stmt
        · rw [if_pos h3] at hs; cases hs
        · rw [if_neg h3] at hs
          injection hs with h
          refine Or.inr (Or.inl ⟨name, h1, rfl, ?_, h.symm⟩)
          intro hmem
          exact h2 ((memStr_iff _ _).mpr hmem)
  · rw [if_neg h1] at hs
    by_cases h2 : isAlterOwnerStmt stmt
    · rw [if_pos h2] at hs
      by_cases h3 : fails stmt
      · rw [if_pos h3] at hs; cases hs
      · rw [if_neg h3] at hs
        injection hs with h
        exact Or.inr (Or.inr (Or.inl ⟨eq_false_of_ne_true h1, h2, h.symm⟩))
    · rw [if_neg h2] at hs
      by_cases h3 : isConnectStmt stmt
      · rw [if_pos h3] at hs
        match hsp : splitOnChar '"' stmt with
        | [a, name, b] =>
          simp only [hsp] at hs
          injection hs with h
          exact Or.inr (Or.inr (Or.inr (Or.inl
            ⟨eq_false_of_ne_true h1, eq_false_of_ne_true h2, h3,
             a, name, b, rfl, h.symm⟩)))
        | [] =>
          simp only [hsp] at hs
          exact Except.noConfusion hs
        | [a] =>
          simp only [hsp] at hs
          exact Except.noConfusion hs
        | [a, b] =>
          simp only [hsp] at hs
          exact Except.noConfusion hs
        | a :: b :: c :: d :: tl =>
          simp only [hsp] at hs
          exact Except.noConfusion hs
      · rw [if_neg h3] at hs
        injection hs with h
        refine Or.inr (Or.inr (Or.inr (Or.inr ⟨?_, h.symm⟩)))
        simp [isRemainingStmt, eq_false_of_ne_true h1,
          eq_false_of_ne_true h2, eq_false_of_ne_true h3]

theorem runStmts_ok_remaining {fails : String → Bool} {stmts : List String}
    {st st' : ExecState} (h : runStmts fails st stmts = .ok st') :
    st'.remaining = st.remaining ++
      ((stmts.map (fun s => goTrimLeftCut s " \t")).filter isRemainingStmt) := by
  induction stmts generalizing st with
  | nil =>
    simp only [runStmts] at h
    injection h with h
    subst h
    simp
  | cons s rest ih =>
    simp only [runStmts] at h
    cases hstep : stepStmt fails st s with
    | error e =>
      simp only [hstep] at h
      exact RunResult.noConfusion h
    | ok st1 =>
      simp only [hstep] at h
      unfold stepStmt at hstep
      have hrec := ih h
      rcases stepTrimmed_ok_cases hstep with
        ⟨name, hc, hp, hmem, hst⟩ | ⟨name, hc, hp, hmem, hst⟩ |
        ⟨hc, ha, hst⟩ | ⟨hc, ha, hcn, a, name, b, hsp, hst⟩ | ⟨hr, hst⟩ <;>
        subst hst
      · simp only [List.map_cons, List.filter_cons, isRemainingStmt, hc]
        simpa using hrec
      · simp only [List.map_cons, List.filter_cons, isRemainingStmt, hc]
        simpa using hrec
      · simp only [List.map_cons, List.filter_cons, isRemainingStmt, hc, ha]
        simpa using hrec
      · simp only [List.map_cons, List.filter_cons, isRemainingStmt, hc, ha,
          hcn]
        simpa using hrec
      · simp only [List.map_cons, List.filter_cons, hr]
        simpa [List.append_assoc] using hrec

theorem runStmts_ok_effects {fails : String → Bool} {stmts : List String}
    {st st' : ExecState} (h : runStmts fails st stmts = .ok st') :
    ∀ e ∈ st'.effects, e ∈ st.effects ∨ effFromBucket e := by
  induction stmts generalizing st with
  | nil =>
    simp only [runStmts] at h
    injection h with h
    subst h
    exact fun e he => Or.inl he
  | cons s rest ih =>
    simp only [runStmts] at h
    cases hstep : stepStmt fails st s with
    | error e =>
      simp only [hstep] at h
      exact RunResult.noConfusion h
    | ok st1 =>
      simp only [hstep] at h
      unfold stepStmt at hstep
      intro e he
      rcases ih h e he with h1 | h1
      · rcases stepTrimmed_ok_cases hstep with
          ⟨name, hc, hp, hmem, hst⟩ | ⟨name, hc, hp, hmem, hst⟩ |
          ⟨hc, ha, hst⟩ | ⟨hc, ha, hcn, a, name, b, hsp, hst⟩ | ⟨hr, hst⟩ <;>
          subst hst <;>
          (try simp only [List.mem_append, List.mem_singleton] at h1)
        · exact Or.inl h1
        · rcases h1 with h1 | h1
          · exact Or.inl h1
          · subst h1
            exact Or.inr (Or.inl hc)
        · rcases h1 with h1 | h1
          · exact Or.inl h1
          · subst h1
            exact Or.inr (Or.inr ha)
        · rcases h1 with h1 | h1
          · exact Or.inl h1
          · subst h1
            exact Or.inr trivial
        · exact Or.inl h1
      · exact Or.inr h1

theorem runStmts_ok_db_mono {fails : String → Bool} {stmts : List String}
    {st st' : ExecState} (h : runStmts fails st stmts = .ok st') :
    ∀ d, d ∈ st.databases → d ∈ st'.databases := by
  induction stmts generalizing st with
  | nil =>
    simp only [runStmts] at h
    injection h with h
    subst h
    exact fun d hd => hd
  | cons s rest ih =>
    simp only [runStmts] at h
    cases hstep : stepStmt fails st s with
    | error e =>
      simp only [hstep] at h
      exact RunResult.noConfusion h
    | ok st1 =>
      simp only [hstep] at h
      unfold stepStmt at hstep
      intro d hd
      refine ih h d ?_
      rcases stepTrimmed_ok_cases hstep with
        ⟨name, hc, hp, hmem, hst⟩ | ⟨name, hc, hp, hmem, hst⟩ |
        ⟨hc, ha, hst⟩ | ⟨hc, ha, hcn, a, name, b, hsp, hst⟩ | ⟨hr, hst⟩ <;>
        subst hst <;> simp [hd]

theorem runStmts_ok_createdb_noop {fails : String → Bool}
    {stmts : List String} {st st' : ExecState}
    (h : runStmts fails st stmts = .ok st') :
    ∀ d s, d ∈ st.databases → isCreateDbStmt s = true →
      getDatabaseInCreateDatabaseStatement s = .ok d →
      PgEffect.execNoTxn s ∈ st'.effects →
      PgEffect.execNoTxn s ∈ st.effects := by
  induction stmts generalizing st with
  | nil =>
    simp only [runStmts] at h
    injection h with h
    subst h
    exact fun d s _ _ _ he => he
  | cons t rest ih =>
    simp only [runStmts] at h
    cases hstep : stepStmt fails st t with
    | error e =>
      simp only [hstep] at h
      exact RunResult.noConfusion h
    | ok st1 =>
      simp only [hstep] at h
      unfold stepStmt at hstep
      intro d s hd hcs hps he
      have hd1 : d ∈ st1.databases := by
        rcases stepTrimmed_ok_cases hstep with
          ⟨name, hc, hp, hmem, hst⟩ | ⟨name, hc, hp, hmem, hst⟩ |
          ⟨hc, ha, hst⟩ | ⟨hc, ha, hcn, a, name, b, hsp, hst⟩ | ⟨hr, hst⟩ <;>
          subst hst <;> simp [hd]
      have he1 := ih h d s hd1 hcs hps he
      rcases stepTrimmed_ok_cases hstep with
        ⟨name, hc, hp, hmem, hst⟩ | ⟨name, hc, hp, hmem, hst⟩ |
        ⟨hc, ha, hst⟩ | ⟨hc, ha, hcn, a, name, b, hsp, hst⟩ | ⟨hr, hst⟩ <;>
        subst hst <;>
        simp only [List.mem_append, List.mem_singleton] at he1
      · exact he1
      · rcases he1 with he1 | he1
        · exact he1
        · exfalso
          injection he1 with he2
          subst he2
          rw [hps] at hp
          injection hp with hp
          subst hp
          exact hmem hd
      · rcases he1 with he1 | he1
        · exact he1
        · exfalso
          injection he1 with he2
          subst he2
          rw [hcs] at hc
          exact Bool.noConfusion hc
      · rcases he1 with he1 | he1
        · exact he1
        · exact PgEffect.noConfusion he1
      · exact he1

theorem runStmts_ok_switch_src {fails : String → Bool}
    {stmts : List String} {st st' : ExecState}
    (h : runStmts fails st stmts = .ok st') :
    ∀ d, PgEffect.switchConn d ∈ st'.effects →
      PgEffect.switchConn d ∈ st.effects ∨
      ∃ s ∈ stmts, isConnectStmt (goTrimLeftCut s " \t") = true ∧
        ∃ a b, splitOnChar '"' (goTrimLeftCut s " \t") = [a, d, b] := by
  induction stmts generalizing st with
  | nil =>
    simp only [runStmts] at h
    injection h with h
    subst h
    exact fun d hd => Or.inl hd
  | cons t rest ih =>
    simp only [runStmts] at h
    cases hstep : stepStmt fails st t with
    | error e =>
      simp only [hstep] at h
      exact RunResult.noConfusion h
    | ok st1 =>
      simp only [hstep] at h
      unfold stepStmt at hstep
      intro d hd
      rcases ih h d hd with h1 | h1
      · rcases stepTrimmed_ok_cases hstep with
          ⟨name, hc, hp, hmem, hst⟩ | ⟨name, hc, hp, hmem, hst⟩ |
          ⟨hc, ha, hst⟩ | ⟨hc, ha, hcn, a, name, b, hsp, hst⟩ | ⟨hr, hst⟩ <;>
          subst hst <;>
          (try simp only [List.mem_append, List.mem_singleton] at h1)
        · exact Or.inl h1
        · rcases h1 with h1 | h1
          · exact Or.inl h1
          · exact PgEffect.noConfusion h1
        · rcases h1 with h1 | h1
          · exact Or.inl h1
          · exact PgEffect.noConfusion h1
        · rcases h1 with h1 | h1
          · exact Or.inl h1
          · injection h1 with h2
            subst h2
            exact Or.inr ⟨t, List.mem_cons_self t rest, hcn, a, b, hsp⟩
        · exact Or.inl h1
      · rcases h1 with ⟨s, hmem, hrest⟩
        exact Or.inr ⟨s, List.mem_cons_of_mem t hmem, hrest⟩

/-! ## Claim theorems: Execute -/

/-- C1: on success, `Execute` partitions the split statements into the
four buckets: the deferred bucket is exactly the statements that are not
`CREATE DATABASE `-, `ALTER DATABASE ... OWNER TO `- or `\connect `-
statements; every non-transactional effect comes from a `CREATE DATABASE`
or `ALTER DATABASE ... OWNER TO` statement; a `CREATE DATABASE` statement
naming an existing database is never executed; every connection switch
comes from a `\connect` statement and targets its double-quoted database
name; and the deferred statements, when any, are committed in a single
transaction that first issues `SET LOCAL ROLE` with the current
database's owner. -/
theorem pgExecute_partitions (fails : String → Bool) (inst : PgInstance)
    (stmts : List String) (effs : List PgEffect)
    (h : pgExecute fails inst stmts = (effs, none)) :
    ∃ st, runStmts fails (initState inst) stmts = .ok st ∧
      st.remaining =
        (stmts.map (fun s => goTrimLeftCut s " \t")).filter isRemainingStmt ∧
      (∀ e ∈ st.effects, effFromBucket e) ∧
      (st.remaining = [] → effs = st.effects) ∧
      (st.remaining ≠ [] → ∃ owner, lookupOwner st = some owner ∧
        effs = st.effects ++
          [PgEffect.txn ["SET LOCAL ROLE " ++ owner,
            joinWith "\n" st.remaining]]) ∧
      (∀ s d, isCreateDbStmt s = true →
        getDatabaseInCreateDatabaseStatement s = .ok d →
        d ∈ inst.databases → PgEffect.execNoTxn s ∉ effs) ∧
      (∀ d, PgEffect.switchConn d ∈ effs →
        ∃ s ∈ stmts, isConnectStmt (goTrimLeftCut s " \t") = true ∧
          ∃ a b, splitOnChar '"' (goTrimLeftCut s " \t") = [a, d, b]) := by
  unfold pgExecute at h
  cases hrun : runStmts fails (initState inst) stmts with
  | err effs0 e =>
    rw [hrun] at h
    simp at h
  | ok st =>
    simp only [hrun] at h
    have hrem := runStmts_ok_remaining hrun
    simp only [initState, List.nil_append] at hrem
    have heff := runStmts_ok_effects hrun
    have hfin : (st.remaining = [] ∧ effs = st.effects) ∨
        (st.remaining ≠ [] ∧ ∃ owner, lookupOwner st = some owner ∧
          effs = st.effects ++
            [PgEffect.txn ["SET LOCAL ROLE " ++ owner,
              joinWith "\n" st.remaining]]) := by
      by_cases hre : st.remaining.isEmpty
      · rw [if_pos hre] at h
        injection h with h1 h2
        exact Or.inl ⟨List.isEmpty_iff.mp hre, h1.symm⟩
      · rw [if_neg hre] at h
        have hne : st.remaining ≠ [] := by
          intro hx
          exact hre (by simp [hx])
        cases hlo : lookupOwner st with
        | none =>
          simp only [hlo] at h
          simp at h
        | some owner =>
          simp only [hlo] at h
          by_cases h1 : fails ("SET LOCAL ROLE " ++ owner)
          · rw [if_pos h1] at h
            simp at h
          · rw [if_neg h1] at h
            by_cases h2 : fails (joinWith "\n" st.remaining)
            · rw [if_pos h2] at h
              simp at h
            · rw [if_neg h2] at h
              injection h with ha hb
              exact Or.inr ⟨hne, owner, rfl, ha.symm⟩
    have heff' : ∀ e, e ∈ effs → e ∈ st.effects ∨
        (∃ owner, lookupOwner st = some owner ∧
          e = PgEffect.txn ["SET LOCAL ROLE " ++ owner,
            joinWith "\n" st.remaining]) := by
      intro e he
      rcases hfin with ⟨_, hec⟩ | ⟨_, owner, hown, hec⟩
      · rw [hec] at he
        exact Or.inl he
      · rw [hec] at he
        rcases List.mem_append.mp he with h1 | h1
        · exact Or.inl h1
        · exact Or.inr ⟨owner, hown, List.mem_singleton.mp h1⟩
    refine ⟨st, rfl, hrem, ?_, ?_, ?_, ?_, ?_⟩
    · intro e he
      rcases heff e he with h1 | h1
      · simp [initState] at h1
      · exact h1
    · intro hre
      rcases hfin with ⟨_, hec⟩ | ⟨hne, _⟩
      · exact hec
      · exact absurd hre hne
    · intro hne
      rcases hfin with ⟨hre, _⟩ | ⟨_, hrest⟩
      · exact absurd hre hne
      · exact hrest
    · intro s d hcs hps hd hmem
      have hmem' : PgEffect.execNoTxn s ∈ st.effects := by
        rcases heff' _ hmem with h1 | ⟨owner, _, h1⟩
        · exact h1
        · exact PgEffect.noConfusion h1
      have hd0 : d ∈ (initState inst).databases := by
        simpa [initState] using hd
      have := runStmts_ok_createdb_noop hrun d s hd0 hcs hps hmem'
      simp [initState] at this
    · intro d hmem
      have hmem' : PgEffect.switchConn d ∈ st.effects := by
        rcases heff' _ hmem with h1 | ⟨owner, _, h1⟩
        · exact h1
        · exact PgEffect.noConfusion h1
      rcases runStmts_ok_switch_src hrun d hmem' with h1 | h1
      · simp [initState] at h1
      · exact h1

/-- Witness for C1 at a concrete script exercising all four buckets. -/
theorem pgExecute_partitions_witness :
    ∃ st, runStmts (fun _ => false)
        (initState ⟨["postgres", "mydb"], [("postgres", "admin")],
          "postgres"⟩)
        ["CREATE DATABASE mydb;", "  ALTER DATABASE mydb OWNER TO bob;",
         "\\connect \"postgres\";", "CREATE TABLE t(x int);"] = .ok st ∧
      st.remaining =
        ((["CREATE DATABASE mydb;", "  ALTER DATABASE mydb OWNER TO bob;",
           "\\connect \"postgres\";", "CREATE TABLE t(x int);"].map
          (fun s => goTrimLeftCut s " \t")).filter isRemainingStmt) ∧
      (∀ e ∈ st.effects, effFromBucket e) ∧
      (st.remaining = [] → [PgEffect.execNoTxn
          "ALTER DATABASE mydb OWNER TO bob;",
        PgEffect.switchConn "postgres",
        PgEffect.txn ["SET LOCAL ROLE admin", "CREATE TABLE t(x int);"]] =
          st.effects) ∧
      (st.remaining ≠ [] → ∃ owner, lookupOwner st = some owner ∧
        [PgEffect.execNoTxn "ALTER DATABASE mydb OWNER TO bob;",
         PgEffect.switchConn "postgres",
         PgEffect.txn ["SET LOCAL ROLE admin", "CREATE TABLE t(x int);"]] =
          st.effects ++
          [PgEffect.txn ["SET LOCAL ROLE " ++ owner,
            joinWith "\n" st.remaining]]) ∧
      (∀ s d, isCreateDbStmt s = true →
        getDatabaseInCreateDatabaseStatement s = .ok d →
        d ∈ (⟨["postgres", "mydb"], [("postgres", "admin")],
          "postgres"⟩ : PgInstance).databases →
        PgEffect.execNoTxn s ∉
          [PgEffect.execNoTxn "ALTER DATABASE mydb OWNER TO bob;",
           PgEffect.switchConn "postgres",
           PgEffect.txn ["SET LOCAL ROLE admin",
             "CREATE TABLE t(x int);"]]) ∧
      (∀ d, PgEffect.switchConn d ∈
          [PgEffect.execNoTxn "ALTER DATABASE mydb OWNER TO bob;",
           PgEffect.switchConn "postgres",
           PgEffect.txn ["SET LOCAL ROLE admin",
             "CREATE TABLE t(x int);"]] →
        ∃ s ∈ ["CREATE DATABASE mydb;",
          "  ALTER DATABASE mydb OWNER TO bob;",
          "\\connect \"postgres\";", "CREATE TABLE t(x int);"],
          isConnectStmt (goTrimLeftCut s " \t") = true ∧
          ∃ a b, splitOnChar '"' (goTrimLeftCut s " \t") = [a, d, b]) :=
  pgExecute_partitions (fun _ => false)
    ⟨["postgres", "mydb"], [("postgres", "admin")], "postgres"⟩
    ["CREATE DATABASE mydb;", "  ALTER DATABASE mydb OWNER TO bob;",
     "\\connect \"postgres\";", "CREATE TABLE t(x int);"]
    [PgEffect.execNoTxn "ALTER DATABASE mydb OWNER TO bob;",
     PgEffect.switchConn "postgres",
     PgEffect.txn ["SET LOCAL ROLE admin", "CREATE TABLE t(x int);"]]
    (by decide)

/-- C2: when the transactional bucket fails (owner lookup, the
`SET LOCAL ROLE`, or the joined deferred statements), `Execute` returns
the error and the transaction contributes no committed effect: no
transaction effect and no deferred statement appears in the committed
effect list. -/
theorem pgExecute_rollback (fails : String → Bool) (inst : PgInstance)
    (stmts : List String) (st : ExecState)
    (hrun : runStmts fails (initState inst) stmts = .ok st)
    (hrem : st.remaining ≠ [])
    (hfail : lookupOwner st = none ∨
      (∃ owner, lookupOwner st = some owner ∧
        fails ("SET LOCAL ROLE " ++ owner) = true) ∨
      (∃ owner, lookupOwner st = some owner ∧
        fails ("SET LOCAL ROLE " ++ owner) = false ∧
        fails (joinWith "\n" st.remaining) = true)) :
    (∃ e, pgExecute fails inst stmts = (st.effects, some e)) ∧
    (∀ l, PgEffect.txn l ∉ (pgExecute fails inst stmts).1) ∧
    (∀ s ∈ st.remaining,
      PgEffect.execNoTxn s ∉ (pgExecute fails inst stmts).1) := by
  have hre : st.remaining.isEmpty = false := by
    cases hx : st.remaining with
    | nil => exact absurd hx hrem
    | cons a l => simp [hx]
  have hres : ∃ e, pgExecute fails inst stmts = (st.effects, some e) := by
    unfold pgExecute
    simp only [hrun, hre, Bool.false_eq_true, if_false]
    rcases hfail with hlo | ⟨owner, hlo, hf⟩ | ⟨owner, hlo, hf1, hf2⟩
    · simp [hlo]
    · simp [hlo, hf]
    · simp [hlo, hf1, hf2]
  rcases hres with ⟨e, hres⟩
  have hfst : (pgExecute fails inst stmts).1 = st.effects := by
    rw [hres]
  refine ⟨⟨e, hres⟩, ?_, ?_⟩
  · intro l hl
    rw [hfst] at hl
    rcases runStmts_ok_effects hrun _ hl with h1 | h1
    · simp [initState] at h1
    · exact h1
  · intro s hs hmem
    rw [hfst] at hmem
    have hrems := runStmts_ok_remaining hrun
    simp only [initState, List.nil_append] at hrems
    rw [hrems] at hs
    have hpred : isRemainingStmt s = true := (List.mem_filter.mp hs).2
    rcases runStmts_ok_effects hrun _ hmem with h1 | h1
    · simp [initState] at h1
    · rcases h1 with h1 | h1 <;>
        simp [isRemainingStmt, h1] at hpred

/-- Witness for C2: owner lookup fails on an instance with no owner
rows. -/
theorem pgExecute_rollback_witness :
    (∃ e, pgExecute (fun _ => false) ⟨["postgres"], [], "postgres"⟩
        ["CREATE TABLE t(x int)"] =
      (([] : List PgEffect), some e)) ∧
    (∀ l, PgEffect.txn l ∉
      (pgExecute (fun _ => false) ⟨["postgres"], [], "postgres"⟩
        ["CREATE TABLE t(x int)"]).1) ∧
    (∀ s ∈ ["CREATE TABLE t(x int)"],
      PgEffect.execNoTxn s ∉
        (pgExecute (fun _ => false) ⟨["postgres"], [], "postgres"⟩
          ["CREATE TABLE t(x int)"]).1) :=
  pgExecute_rollback (fun _ => false) ⟨["postgres"], [], "postgres"⟩
    ["CREATE TABLE t(x int)"]
    ⟨["postgres"], [], "postgres", [], ["CREATE TABLE t(x int)"]⟩
    (by decide) (by decide) (Or.inl (by decide))

/-! ## FindMigrationHistoryList and the stored-version backfill

The inner query `util.FindMigrationHistoryList` lives outside `src/` and
is modelled as an `Except`-valued oracle over the target database name
and the stored rows.  Strict database mode is part of the model: the
original query targets `strictDatabase` when it is set and `bytebase`
otherwise, the retry always targets `bytebase`, and in strict mode
`updateMigrationHistoryStorageVersion` never opens a connection, so its
first `sqldb.Query` dereferences a nil handle. -/

/-- A migration history row as read by the backfill query
`SELECT id, version FROM migration_history`. -/
structure MigRow where
  id : Nat
  version : String
deriving Repr, DecidableEq

/-- Modelled from the spec: `util.NonSemanticPrefix`, the marker
distinguishing non-semantic stored versions, is defined in the `util`
package outside `src/`; only the fact that it is a fixed string matters
here. -/
def nonSemanticMarker : String := "0000.0000.0000-"

/-- Modelled from the spec: `db.BytebaseDatabase`, the name of the
internal database (`bytebase` per the spec), defined in the `db` package
outside `src/`. -/
def bytebaseDatabase : String := "bytebase"

/-- One `UPDATE migration_history SET version = $1 WHERE id = $2 AND
version = $3` applied to the stored rows. -/
def applyUpdate (store : List MigRow) (rid : Nat) (oldV newV : String) :
    List MigRow :=
  store.map (fun r =>
    if r.id = rid ∧ r.version = oldV then { r with version := newV } else r)

/-- The rewrite loop of `updateMigrationHistoryStorageVersion`: read all
`(id, version)` pairs, then for each pair whose version does not start
with the non-semantic marker, rewrite the matching row to
`<marker><old>`; pairs already carrying the marker are skipped. -/
def backfillLoop (store : List MigRow) : List MigRow :=
  store.foldl
    (fun cur v =>
      if strStarts v.version nonSemanticMarker then cur
      else applyUpdate cur v.id v.version (nonSemanticMarker ++ v.version))
    store

/-- Outcome of `updateMigrationHistoryStorageVersion`: the rewritten
rows, or the runtime nil-pointer dereference the source hits in strict
mode. -/
inductive BackfillOutcome where
  /-- The rows after the rewrite loop. -/
  | ok (store : List MigRow)
  /-- `sqldb` was never assigned (strict mode skips `GetDbConnection`),
  so `sqldb.Query` dereferences a nil pointer. -/
  | nilPanic
deriving Repr, DecidableEq

/-- Model of `updateMigrationHistoryStorageVersion`: only outside strict
database mode is a connection to the `bytebase` database opened; in
strict mode `sqldb` stays nil and the very first `sqldb.Query`
dereferences it, so no rewrite can occur.  Otherwise the rewrite loop
runs over the stored rows. -/
def updateMigrationHistoryStorageVersion (strictUse : Bool)
    (store : List MigRow) : BackfillOutcome :=
  if strictUse then .nilPanic else .ok (backfillLoop store)

/-- Outcome of the driver's `FindMigrationHistoryList`: a result paired
with the final stored rows, or the strict-mode nil dereference inside
the backfill. -/
inductive FindResult (α : Type) where
  /-- The returned query result and the stored rows at return time. -/
  | result (r : Except String α) (store : List MigRow)
  /-- The backfill dereferenced a nil connection (strict mode). -/
  | nilPanic (store : List MigRow)
deriving Repr

/-- Model of the driver's `FindMigrationHistoryList`: the query targets
`strictDatabase` when set and `bytebase` otherwise; on error, when the
connection is Bytebase's own metadata connection (base DSN containing
`user=bb` and `host=/tmp`) or the message does not contain
`invalid stored version`, the error is returned unchanged; otherwise the
stored versions are backfilled (dereferencing nil in strict mode) and
the query is run once more against the hardcoded `bytebase` database. -/
def findMigrationHistoryList {α : Type} (strictDatabase dsn : String)
    (query : String → List MigRow → Except String α)
    (store : List MigRow) : FindResult α :=
  let database :=
    if strictDatabase != "" then strictDatabase else bytebaseDatabase
  match query database store with
  | .ok h => .result (.ok h) store
  | .error e =>
    if strHas dsn "user=bb" && strHas dsn "host=/tmp" then
      .result (.error e) store
    else if !(strHas e "invalid stored version") then
      .result (.error e) store
    else
      match updateMigrationHistoryStorageVersion (strictDatabase != "")
          store with
      | .nilPanic => .nilPanic store
      | .ok store1 => .result (query bytebaseDatabase store1) store1

/-! ### Helper lemmas for the backfill -/

/-- The per-row effect of processing one read `(id, version)` pair. -/
def stepRow (v r : MigRow) : MigRow :=
  if strStarts v.version nonSemanticMarker then r
  else if r.id = v.id ∧ r.version = v.version then
    { r with version := nonSemanticMarker ++ v.version }
  else r

/-- The per-row rewrite the spec describes. -/
def backfillRow (r : MigRow) : MigRow :=
  if strStarts r.version nonSemanticMarker then r
  else { r with version := nonSemanticMarker ++ r.version }

theorem applyUpdate_fold_eq_map (vers : List MigRow) :
    ∀ cur : List MigRow,
      vers.foldl
        (fun cur v =>
          if strStarts v.version nonSemanticMarker then cur
          else applyUpdate cur v.id v.version
            (nonSemanticMarker ++ v.version)) cur =
      cur.map (fun r => vers.foldl (fun r v => stepRow v r) r) := by
  induction vers with
  | nil => intro cur; simp
  | cons v vs ih =>
    intro cur
    have hone : (if strStarts v.version nonSemanticMarker then cur
        else applyUpdate cur v.id v.version
          (nonSemanticMarker ++ v.version)) =
        cur.map (stepRow v) := by
      by_cases hv : strStarts v.version nonSemanticMarker
      · rw [if_pos hv]
        have : ∀ r ∈ cur, stepRow v r = r := by
          intro r _
          simp [stepRow, hv]
        rw [List.map_congr_left (fun r hr => (this r hr))]
        simp
      · rw [if_neg hv]
        unfold applyUpdate
        refine List.map_congr_left ?_
        intro r _
        simp [stepRow, hv]
    rw [List.foldl_cons, hone, ih, List.map_map]
    rfl

theorem stepRow_fold_untouched (vers : List MigRow) (x : MigRow)
    (h : ∀ v ∈ vers, v.id ≠ x.id) :
    vers.foldl (fun r v => stepRow v r) x = x := by
  induction vers with
  | nil => rfl
  | cons v vs ih =>
    have hx : stepRow v x = x := by
      have hne : ¬ (x.id = v.id ∧ x.version = v.version) := by
        intro ⟨h1, _⟩
        exact h v (List.mem_cons_self v vs) h1.symm
      by_cases hv : strStarts v.version nonSemanticMarker <;>
        simp [stepRow, hv, hne]
    rw [List.foldl_cons, hx]
    exact ih (fun v' hv' => h v' (List.mem_cons_of_mem v hv'))

theorem stepRow_fold_mem (vers : List MigRow)
    (hnd : (vers.map MigRow.id).Nodup) :
    ∀ r ∈ vers, vers.foldl (fun r v => stepRow v r) r = backfillRow r := by
  induction vers with
  | nil => intro r hr; exact absurd hr (List.not_mem_nil r)
  | cons v vs ih =>
    have hnd' := hnd
    rw [List.map_cons, List.nodup_cons] at hnd'
    obtain ⟨hvid, hndvs⟩ := hnd'
    intro r hr
    rcases List.mem_cons.mp hr with hr | hr
    · subst hr
      have hone : stepRow r r = backfillRow r := by
        by_cases hv : strStarts r.version nonSemanticMarker <;>
          simp [stepRow, backfillRow, hv]
      rw [List.foldl_cons, hone]
      refine stepRow_fold_untouched vs (backfillRow r) ?_
      intro v' hv'
      have hid : (backfillRow r).id = r.id := by
        unfold backfillRow
        by_cases hv : strStarts r.version nonSemanticMarker <;> simp [hv]
      rw [hid]
      intro hx
      exact hvid (hx ▸ List.mem_map_of_mem MigRow.id hv')
    · have hvr : v.id ≠ r.id := by
        intro hx
        exact hvid (hx ▸ List.mem_map_of_mem MigRow.id hr)
      have hone : stepRow v r = r := by
        have hne : ¬ (r.id = v.id ∧ r.version = v.version) := by
          intro ⟨h1, _⟩
          exact hvr h1.symm
        by_cases hv : strStarts v.version nonSemanticMarker <;>
          simp [stepRow, hv, hne]
      rw [List.foldl_cons, hone]
      exact ih hndvs r hr

theorem backfillLoop_eq_map (store : List MigRow)
    (hnd : (store.map MigRow.id).Nodup) :
    backfillLoop store = store.map backfillRow := by
  unfold backfillLoop
  rw [applyUpdate_fold_eq_map]
  exact List.map_congr_left (stepRow_fold_mem store hnd)

/-! ## Claim theorems: stored-version backfill -/

/-- C6 counterexample: when the base DSN contains `user=bb` and
`host=/tmp` (Bytebase's own metadata connection), an error containing
`invalid stored version` is returned unchanged even outside strict mode:
the stored rows are not rewritten and no retry result is returned,
although the rewrite would have changed the row and the retry would have
succeeded. -/
theorem findMigrationHistoryList_bb_skips_backfill :
    findMigrationHistoryList "" "host=/tmp port=5432 user=bb"
        (fun _ rows => if rows = [⟨1, "v1"⟩] then
          .error "invalid stored version"
         else .ok rows)
        [⟨1, "v1"⟩] =
      .result (.error "invalid stored version") [⟨1, "v1"⟩] ∧
    strHas "invalid stored version" "invalid stored version" = true ∧
    updateMigrationHistoryStorageVersion false [⟨1, "v1"⟩] =
      .ok [⟨1, "0000.0000.0000-v1"⟩] ∧
    (fun _ rows => if rows = [⟨1, "v1"⟩] then
        (.error "invalid stored version" : Except String (List MigRow))
       else .ok rows)
      bytebaseDatabase [⟨1, "0000.0000.0000-v1"⟩] =
      .ok [⟨1, "0000.0000.0000-v1"⟩] ∧
    ((FindResult.result (.error "invalid stored version") [⟨1, "v1"⟩] :
        FindResult (List MigRow)) ≠
      FindResult.result (.ok [⟨1, "0000.0000.0000-v1"⟩])
        [⟨1, "0000.0000.0000-v1"⟩]) := by
  refine ⟨by rfl, by decide, by decide, by rfl, ?_⟩
  intro h
  injection h with h1 h2
  exact Except.noConfusion h1

/-- C6 amended: when the inner query fails with an error containing
`invalid stored version` and the base DSN is not Bytebase's own metadata
connection (containing `user=bb` and `host=/tmp`): outside strict
database mode the driver rewrites every stored row whose version does
not start with the non-semantic marker to `<marker><old>`, leaves rows
already carrying the marker unchanged, and retries the query once
against the `bytebase` database (the original query's target in that
mode), returning the retried result; in strict database mode no rewrite
or retry happens — the backfill dereferences a nil connection. -/
theorem findMigrationHistoryList_backfills {α : Type} (dsn : String)
    (query : String → List MigRow → Except String α)
    (store : List MigRow) (e : String) (sdb : String)
    (he : strHas e "invalid stored version" = true)
    (hbb : (strHas dsn "user=bb" && strHas dsn "host=/tmp") = false)
    (hnd : (store.map MigRow.id).Nodup) :
    (query bytebaseDatabase store = .error e →
      findMigrationHistoryList "" dsn query store =
        .result
          (query bytebaseDatabase (store.map (fun r =>
            if strStarts r.version nonSemanticMarker then r
            else { r with version := nonSemanticMarker ++ r.version })))
          (store.map (fun r =>
            if strStarts r.version nonSemanticMarker then r
            else { r with version := nonSemanticMarker ++ r.version }))) ∧
    (sdb ≠ "" → query sdb store = .error e →
      findMigrationHistoryList sdb dsn query store =
        .nilPanic store) := by
  constructor
  · intro hq
    unfold findMigrationHistoryList
    have h0 : (("" : String) != "") = false := by decide
    simp only [h0, Bool.false_eq_true, if_false]
    simp only [hq, hbb, Bool.false_eq_true, if_false, he, Bool.not_true]
    unfold updateMigrationHistoryStorageVersion
    simp only [h0, Bool.false_eq_true, if_false]
    rw [backfillLoop_eq_map store hnd]
    rfl
  · intro hsdb hq
    unfold findMigrationHistoryList
    have h1 : (sdb != "") = true := by
      simp [bne_iff_ne, hsdb]
    simp only [h1, if_true]
    simp only [hq, hbb, Bool.false_eq_true, if_false, he, Bool.not_true]
    unfold updateMigrationHistoryStorageVersion
    simp only [h1, if_true]

/-- Witness for C6 amended on a two-row store, one row already carrying
the marker: the non-strict driver rewrites and retries, the strict
driver hits the nil dereference. -/
theorem findMigrationHistoryList_backfills_witness :
    (findMigrationHistoryList "" "host=localhost user=alice"
        (fun _ rows =>
          if rows = [⟨1, "v1"⟩, ⟨2, "0000.0000.0000-3"⟩] then
            .error "read failed: invalid stored version"
          else .ok rows)
        [⟨1, "v1"⟩, ⟨2, "0000.0000.0000-3"⟩] =
      .result (.ok [⟨1, "0000.0000.0000-v1"⟩, ⟨2, "0000.0000.0000-3"⟩])
        [⟨1, "0000.0000.0000-v1"⟩, ⟨2, "0000.0000.0000-3"⟩]) ∧
    (findMigrationHistoryList "mydb" "host=localhost user=alice"
        (fun _ rows =>
          if rows = [⟨1, "v1"⟩, ⟨2, "0000.0000.0000-3"⟩] then
            .error "read failed: invalid stored version"
          else .ok rows)
        [⟨1, "v1"⟩, ⟨2, "0000.0000.0000-3"⟩] =
      .nilPanic [⟨1, "v1"⟩, ⟨2, "0000.0000.0000-3"⟩]) := by
  have h := findMigrationHistoryList_backfills "host=localhost user=alice"
    (fun _ rows =>
      if rows = [⟨1, "v1"⟩, ⟨2, "0000.0000.0000-3"⟩] then
        .error "read failed: invalid stored version"
      else .ok rows)
    [⟨1, "v1"⟩, ⟨2, "0000.0000.0000-3"⟩]
    "read failed: invalid stored version" "mydb"
    (by decide) (by decide) (by decide)
  refine ⟨?_, h.2 (by decide) (by rfl)⟩
  have h1 := h.1 (by rfl)
  rw [h1]
  rfl

/-! ## SetupMigrationIfNeeded (pg driver migration schema bootstrap)

`NeedsSetupMigration`, `hasBytebaseDatabase` and the three `ExecContext`
calls are modelled as oracles; performed setup actions are recorded as an
effect list, returned with the error, if any. -/

/-- A setup action performed by `SetupMigrationIfNeeded`. -/
inductive SetupEffect where
  /-- `CREATE DATABASE bytebase;` executed. -/
  | createdBytebaseDb
  /-- The connection switched to a database. -/
  | switchedTo (dbName : String)
  /-- The embedded `migration_history` schema script executed. -/
  | ranMigrationSchema
deriving Repr, DecidableEq

/-- Model of `SetupMigrationIfNeeded`: call `NeedsSetupMigration` and, on
its error, return success with nothing done (the source returns `nil`
there); otherwise, when setup is needed, in non-strict mode look up and,
if absent, create the `bytebase` database, switch to it, and finally run
the `migration_history` schema script. -/
def setupMigrationIfNeeded (needs : Except String Bool) (strictUse : Bool)
    (hasBB : Except String Bool) (createOk switchOk schemaOk : Bool) :
    List SetupEffect × Option String :=
  match needs with
  | .error _ => ([], none)
  | .ok false => ([], none)
  | .ok true =>
    if strictUse then
      if schemaOk then ([.ranMigrationSchema], none)
      else ([], some "failed to initialize migration schema")
    else
      match hasBB with
      | .error e =>
        ([], some ("failed to find bytebase database error: " ++ e))
      | .ok exist =>
        if exist then
          if switchOk then
            if schemaOk then
              ([.switchedTo "bytebase", .ranMigrationSchema], none)
            else ([.switchedTo "bytebase"],
              some "failed to initialize migration schema")
          else ([], some "failed to switch to bytebase database error")
        else
          if createOk then
            if switchOk then
              if schemaOk then
                ([.createdBytebaseDb, .switchedTo "bytebase",
                  .ranMigrationSchema], none)
              else ([.createdBytebaseDb, .switchedTo "bytebase"],
                some "failed to initialize migration schema")
            else ([.createdBytebaseDb],
              some "failed to switch to bytebase database error")
          else ([], some "failed to create bytebase database")

/-- C9: whenever `NeedsSetupMigration` returns an error,
`SetupMigrationIfNeeded` returns success having performed no setup at
all: the error is swallowed.  By contrast, when setup is reported needed
the function does perform the bootstrap. -/
theorem setupMigration_swallows_error :
    (∀ (e : String) (strictUse : Bool) (hasBB : Except String Bool)
      (createOk switchOk schemaOk : Bool),
      setupMigrationIfNeeded (.error e) strictUse hasBB createOk switchOk
        schemaOk = ([], none)) ∧
    setupMigrationIfNeeded (.ok true) false (.ok false) true true true =
      ([.createdBytebaseDb, .switchedTo "bytebase", .ranMigrationSchema],
        none) := by
  exact ⟨fun _ _ _ _ _ _ => rfl, rfl⟩

/-! ## FindInboxSummary (inbox store) -/

/-- An inbox row, with the columns the summary queries inspect. -/
structure InboxRow where
  receiverId : Int
  status : String
  level : String
deriving Repr, DecidableEq

/-- The summary returned by `FindInboxSummary`. -/
structure InboxSummary where
  hasUnread : Bool
  hasUnreadError : Bool
deriving Repr, DecidableEq

/-- Model of `FindInboxSummary`: the first `EXISTS` query checks for an
`UNREAD` row of the receiver; only when it reports true is the second
`EXISTS` query (additionally requiring level `ERROR`) run, otherwise
`HasUnreadError` is set to false directly.  Returns the summary and the
number of queries run. -/
def findInboxSummary (rows : List InboxRow) (principalId : Int) :
    InboxSummary × Nat :=
  let hasUnread := rows.any (fun r =>
    r.receiverId = principalId && r.status = "UNREAD")
  if hasUnread then
    let hasUnreadError := rows.any (fun r =>
      r.receiverId = principalId && r.status = "UNREAD" &&
        r.level = "ERROR")
    ({ hasUnread := hasUnread, hasUnreadError := hasUnreadError }, 2)
  else
    ({ hasUnread := hasUnread, hasUnreadError := false }, 1)

/-- C10: the summary satisfies `HasUnreadError → HasUnread`: either
`HasUnread` is true, or `HasUnreadError` is false and the second query
was never run — the pair `(HasUnread := false, HasUnreadError := true)`
is never returned. -/
theorem findInboxSummary_consistent (rows : List InboxRow)
    (principalId : Int) :
    ((!(findInboxSummary rows principalId).1.hasUnread &&
      (findInboxSummary rows principalId).1.hasUnreadError) = false) ∧
    ((findInboxSummary rows principalId).1.hasUnread = true ∨
      ((findInboxSummary rows principalId).1.hasUnreadError = false ∧
        (findInboxSummary rows principalId).2 = 1)) := by
  unfold findInboxSummary
  by_cases h : rows.any (fun r =>
      r.receiverId = principalId && r.status = "UNREAD") <;>
    simp [h]

/-! ## GitLab webhook pipeline (registerWebhookRoutes)

The handler on `POST /hook/gitlab/:id` is modelled as a pure function
over the decoded push event; the repository lookup, the GitLab file
fetch, `ParseMigrationInfo`, the database lookup and issue creation are
oracles.  Body reading and JSON decoding are taken as succeeded (their
failures are separate `400`s the claims do not touch). -/

/-- A commit of a push event, with the fields the handler reads. -/
structure GitlabCommit where
  id : String
  title : String
  message : String
  timestamp : String
  url : String
  authorName : String
  addedList : List String
deriving Repr, DecidableEq

/-- The decoded push event. -/
structure WebhookPushEvent where
  objectKind : String
  projectId : Int
  ref : String
  authorName : String
  commitList : List GitlabCommit
deriving Repr, DecidableEq

/-- The repository row matched by the webhook endpoint id. -/
structure Repository where
  secretToken : String
  externalId : String
  baseDirectory : String
  projectId : Int
deriving Repr, DecidableEq

/-- Modelled from the spec: the GitLab client's push object-kind constant
(`gitlab.WebhookPush`, package `external/gitlab`, outside `src/`); the
spec requires the event kind to be a push. -/
def webhookPushKind : String := "push"

/-- The suffix of a character list after its last occurrence of `c` (the
whole list when `c` does not occur). -/
def afterLastChar (c : Char) (l : List Char) : List Char :=
  (splitCharAux c l []).getLastD []

/-- Model of Go `filepath.Ext`: the suffix of the final path element
starting at its last dot, dot included; empty when it has no dot. -/
def goExt (p : String) : String :=
  let base := afterLastChar '/' p.data
  if base.contains '.' then ⟨'.' :: afterLastChar '.' base⟩ else ""

/-- Model of Go `filepath.Base`: `.` for the empty path, `/` for a path
of only slashes, otherwise the last element after trailing slashes are
dropped. -/
def goBase (p : String) : String :=
  if p = "" then "."
  else
    let l := (p.data.reverse.dropWhile (fun c => c = '/')).reverse
    if l.isEmpty then "/" else ⟨afterLastChar '/' l⟩

/-- The migration descriptor parsed from a filename
(`db.ParseMigrationInfo`, outside `src/`; only the fields the handler
reads are modelled). -/
structure MigrationInfo where
  database : String
  description : String
deriving Repr, DecidableEq

/-- The database row matched for a migration file. -/
structure WebhookDatabase where
  id : Nat
  instanceId : Nat
  projectId : Int
  environmentId : Nat
  environmentName : String
deriving Repr, DecidableEq

/-- The relevant fields of the issue submitted for one migration file. -/
structure IssueCreateModel where
  projectId : Int
  name : String
  description : String
  statement : String
  databaseId : Nat
  instanceId : Nat
deriving Repr, DecidableEq

/-- The handler's collaborators, as oracles: filename parsing, file
fetch at a commit SHA, database lookup by name, and issue creation
(returning the created issue's name). -/
structure WebhookOracles where
  parseMigrationInfo : String → Except String MigrationInfo
  fetchFile : String → String → Except String String
  findDatabase : String → Except String WebhookDatabase
  createIssue : IssueCreateModel → Except String String

/-- The handler's filter on added paths: under the repository's base
directory, with extension `.sql`. -/
def webhookQualifies (repo : Repository) (added : String) : Bool :=
  strStarts added repo.baseDirectory && (goExt added == ".sql")

/-- The per-file pipeline for one qualifying added path: parse the
filename, fetch the content, find the database, create the issue; any
failure skips the file (`continue` in the source, `none` here).  On
success: the created issue's name and the response line.  (The commit
timestamp parse failure is only logged by the source and does not
skip.) -/
def processFile (o : WebhookOracles) (_repo : Repository)
    (commit : GitlabCommit) (added : String) : Option (String × String) :=
  let filename := goBase added
  match o.parseMigrationInfo filename with
  | .error _ => none
  | .ok mi =>
    match o.fetchFile added commit.id with
    | .error _ => none
    | .ok content =>
      match o.findDatabase mi.database with
      | .error _ => none
      | .ok database =>
        match o.createIssue ⟨database.projectId, commit.title,
            commit.message, content, database.id, database.instanceId⟩ with
        | .error _ => none
        | .ok issueName =>
          some (issueName,
            "Created issue '" ++ issueName ++ "' on adding " ++ filename)

/-- The handler's inner loop over one commit's added paths, accumulating
(issue name, response line) pairs. -/
def processAdded (o : WebhookOracles) (repo : Repository)
    (commit : GitlabCommit) (acc : List (String × String)) :
    List String → List (String × String)
  | [] => acc
  | added :: rest =>
    let acc1 :=
      if webhookQualifies repo added then
        match processFile o repo commit added with
        | some p => acc ++ [p]
        | none => acc
      else acc
    processAdded o repo commit acc1 rest

/-- The handler's outer loop over the event's commits. -/
def processCommits (o : WebhookOracles) (repo : Repository)
    (acc : List (String × String)) :
    List GitlabCommit → List (String × String)
  | [] => acc
  | c :: rest =>
    processCommits o repo (processAdded o repo c acc c.addedList) rest

/-- An HTTP response of the handler. -/
structure HttpResponse where
  status : Nat
  body : String
deriving Repr, DecidableEq

/-- Outcome of the repository lookup by webhook endpoint id. -/
inductive RepoLookup where
  | found (repo : Repository)
  | notFound
  | failure
deriving Repr, DecidableEq

/-- Model of the `POST /hook/gitlab/:id` handler: reject non-push events
with `400`; map the repository lookup outcome to `404`/`500`; reject a
relationship-composition failure with `500`; reject a secret-token
mismatch and a project-id mismatch with `400`; otherwise process every
commit's added paths and answer `200` with the newline-joined response
lines.  Returns the response and the created (issue name, line) pairs. -/
def webhookHandler (o : WebhookOracles) (lookup : RepoLookup)
    (composeOk : Bool) (headerToken : String) (event : WebhookPushEvent) :
    HttpResponse × List (String × String) :=
  if event.objectKind != webhookPushKind then
    (⟨400, "Invalid webhook event type, got " ++ event.objectKind ++
      ", want push"⟩, [])
  else
    match lookup with
    | .notFound => (⟨404, "Endpoint not found"⟩, [])
    | .failure => (⟨500, "Failed to respond webhook event for endpoint"⟩, [])
    | .found repo =>
      if !composeOk then
        (⟨500, "Failed to fetch repository relationship"⟩, [])
      else if headerToken != repo.secretToken then
        (⟨400, "Secret token mismatch"⟩, [])
      else if toString event.projectId != repo.externalId then
        (⟨400, "Project mismatch"⟩, [])
      else
        let created := processCommits o repo [] event.commitList
        (⟨200, joinWith "\n" (created.map Prod.snd)⟩, created)

/-! ### Helper lemmas for the webhook handler -/

theorem processAdded_eq_filterMap (o : WebhookOracles) (repo : Repository)
    (commit : GitlabCommit) (l : List String) :
    ∀ acc, processAdded o repo commit acc l =
      acc ++ l.filterMap (fun added =>
        if webhookQualifies repo added then processFile o repo commit added
        else none) := by
  induction l with
  | nil => intro acc; simp [processAdded]
  | cons added rest ih =>
    intro acc
    unfold processAdded
    by_cases hq : webhookQualifies repo added
    · cases hp : processFile o repo commit added with
      | none => simp [hq, hp, ih]
      | some p => simp [hq, hp, ih]
    · simp [hq, ih]

theorem processCommits_eq_bind (o : WebhookOracles) (repo : Repository)
    (cl : List GitlabCommit) :
    ∀ acc, processCommits o repo acc cl =
      acc ++ cl.flatMap (fun c => c.addedList.filterMap (fun added =>
        if webhookQualifies repo added then processFile o repo c added
        else none)) := by
  induction cl with
  | nil => intro acc; simp [processCommits]
  | cons c rest ih =>
    intro acc
    unfold processCommits
    rw [ih, processAdded_eq_filterMap]
    simp

/-! ## Claim theorems: webhook pipeline -/

/-- C7: the handler answers `400` and creates no issue whenever the
event's object kind is not a push, or (with the repository found and its
relationships composed) the `X-Gitlab-Token` header differs from the
repository's secret token or the event's project id differs from the
repository's external id. -/
theorem webhookHandler_rejects (o : WebhookOracles) (lookup : RepoLookup)
    (composeOk : Bool) (headerToken : String) (event : WebhookPushEvent)
    (repo : Repository)
    (h : event.objectKind ≠ webhookPushKind ∨
      (lookup = RepoLookup.found repo ∧ composeOk = true ∧
        (headerToken ≠ repo.secretToken ∨
          toString event.projectId ≠ repo.externalId))) :
    (webhookHandler o lookup composeOk headerToken event).1.status = 400 ∧
    (webhookHandler o lookup composeOk headerToken event).2 = [] := by
  unfold webhookHandler
  rcases h with hk | ⟨hl, hc, hrest⟩
  · have : (event.objectKind != webhookPushKind) = true := by
      simp [bne_iff_ne, hk]
    rw [if_pos this]
    exact ⟨rfl, rfl⟩
  · subst hl
    subst hc
    by_cases hk : event.objectKind = webhookPushKind
    · have hkb : (event.objectKind != webhookPushKind) = false := by
        simp [hk]
      rw [hkb]
      simp only [Bool.false_eq_true, if_false, Bool.not_true]
      rcases hrest with ht | hp
      · have : (headerToken != repo.secretToken) = true := by
          simp [bne_iff_ne, ht]
        rw [this]
        exact ⟨rfl, rfl⟩
      · by_cases ht : headerToken = repo.secretToken
        · have htb : (headerToken != repo.secretToken) = false := by
            simp [ht]
          rw [htb]
          have : (toString event.projectId != repo.externalId) = true := by
            simp [bne_iff_ne, hp]
          rw [this]
          exact ⟨rfl, rfl⟩
        · have : (headerToken != repo.secretToken) = true := by
            simp [bne_iff_ne, ht]
          rw [this]
          exact ⟨rfl, rfl⟩
    · have : (event.objectKind != webhookPushKind) = true := by
        simp [bne_iff_ne, hk]
      rw [if_pos this]
      exact ⟨rfl, rfl⟩

/-- Witness for C7: a push event with a mismatched secret token is
rejected with `400` and no issue. -/
theorem webhookHandler_rejects_witness :
    (webhookHandler
      ⟨fun _ => .error "", fun _ _ => .error "", fun _ => .error "",
        fun _ => .error ""⟩
      (RepoLookup.found ⟨"secret", "42", "sql", 42⟩) true "wrong"
      ⟨"push", 42, "refs/heads/main", "alice", []⟩).1.status = 400 ∧
    (webhookHandler
      ⟨fun _ => .error "", fun _ _ => .error "", fun _ => .error "",
        fun _ => .error ""⟩
      (RepoLookup.found ⟨"secret", "42", "sql", 42⟩) true "wrong"
      ⟨"push", 42, "refs/heads/main", "alice", []⟩).2 = [] :=
  webhookHandler_rejects _ _ _ _ _ ⟨"secret", "42", "sql", 42⟩
    (Or.inr ⟨rfl, rfl, Or.inl (by decide)⟩)

/-- C8: for an authenticated push event the handler always answers
`200`, whatever the per-file oracles do: each added path is considered
exactly when it lies under the repository's base directory with
extension `.sql`, a per-file failure merely drops that file's entry, and
the body is the newline-join of one response line per created issue. -/
theorem webhookHandler_processes (o : WebhookOracles) (repo : Repository)
    (headerToken : String) (event : WebhookPushEvent)
    (hkind : event.objectKind = webhookPushKind)
    (htok : headerToken = repo.secretToken)
    (hext : toString event.projectId = repo.externalId) :
    (webhookHandler o (RepoLookup.found repo) true headerToken
        event).1.status = 200 ∧
    (webhookHandler o (RepoLookup.found repo) true headerToken event).2 =
      event.commitList.flatMap (fun c => c.addedList.filterMap (fun added =>
        if webhookQualifies repo added then processFile o repo c added
        else none)) ∧
    (webhookHandler o (RepoLookup.found repo) true headerToken
        event).1.body =
      joinWith "\n" ((event.commitList.flatMap (fun c =>
        c.addedList.filterMap (fun added =>
          if webhookQualifies repo added then processFile o repo c added
          else none))).map Prod.snd) := by
  unfold webhookHandler
  have hkb : (event.objectKind != webhookPushKind) = false := by
    simp [hkind]
  have htb : (headerToken != repo.secretToken) = false := by
    simp [htok]
  have heb : (toString event.projectId != repo.externalId) = false := by
    simp [hext]
  rw [hkb]
  simp only [Bool.false_eq_true, if_false, Bool.not_true]
  rw [htb]
  simp only [Bool.false_eq_true, if_false]
  rw [heb]
  simp only [Bool.false_eq_true, if_false]
  rw [processCommits_eq_bind]
  exact ⟨by trivial, by simp, by simp⟩

/-- Witness for C8 on the spec's scenario: a push adding
`sql/0004__add_col.sql` and `sql/README.md` yields `200` and exactly one
created issue, for `0004__add_col.sql` only. -/
theorem webhookHandler_processes_witness :
    (webhookHandler
      ⟨fun f => if f = "0004__add_col.sql" then
          .ok ⟨"db1", "add col"⟩ else .error "invalid filename",
        fun _ _ => .ok "ALTER TABLE t ADD COLUMN c INT;",
        fun d => if d = "db1" then .ok ⟨11, 7, 42, 3, "Prod"⟩
          else .error "not found",
        fun ic => .ok ic.name⟩
      (RepoLookup.found ⟨"secret", "42", "sql", 42⟩) true "secret"
      ⟨"push", 42, "refs/heads/main", "alice",
        [⟨"abc123", "Add column", "adds c", "2021-01-01T00:00:00Z",
          "http://x", "alice",
          ["sql/0004__add_col.sql", "sql/README.md"]⟩]⟩).1.status = 200 ∧
    (webhookHandler
      ⟨fun f => if f = "0004__add_col.sql" then
          .ok ⟨"db1", "add col"⟩ else .error "invalid filename",
        fun _ _ => .ok "ALTER TABLE t ADD COLUMN c INT;",
        fun d => if d = "db1" then .ok ⟨11, 7, 42, 3, "Prod"⟩
          else .error "not found",
        fun ic => .ok ic.name⟩
      (RepoLookup.found ⟨"secret", "42", "sql", 42⟩) true "secret"
      ⟨"push", 42, "refs/heads/main", "alice",
        [⟨"abc123", "Add column", "adds c", "2021-01-01T00:00:00Z",
          "http://x", "alice",
          ["sql/0004__add_col.sql", "sql/README.md"]⟩]⟩).2 =
      [("Add column",
        "Created issue 'Add column' on adding 0004__add_col.sql")] ∧
    (webhookHandler
      ⟨fun f => if f = "0004__add_col.sql" then
          .ok ⟨"db1", "add col"⟩ else .error "invalid filename",
        fun _ _ => .ok "ALTER TABLE t ADD COLUMN c INT;",
        fun d => if d = "db1" then .ok ⟨11, 7, 42, 3, "Prod"⟩
          else .error "not found",
        fun ic => .ok ic.name⟩
      (RepoLookup.found ⟨"secret", "42", "sql", 42⟩) true "secret"
      ⟨"push", 42, "refs/heads/main", "alice",
        [⟨"abc123", "Add column", "adds c", "2021-01-01T00:00:00Z",
          "http://x", "alice",
          ["sql/0004__add_col.sql", "sql/README.md"]⟩]⟩).1.body =
      "Created issue 'Add column' on adding 0004__add_col.sql" := by
  have h := webhookHandler_processes
    ⟨fun f => if f = "0004__add_col.sql" then
        .ok ⟨"db1", "add col"⟩ else .error "invalid filename",
      fun _ _ => .ok "ALTER TABLE t ADD COLUMN c INT;",
      fun d => if d = "db1" then .ok ⟨11, 7, 42, 3, "Prod"⟩
        else .error "not found",
      fun ic => .ok ic.name⟩
    ⟨"secret", "42", "sql", 42⟩ "secret"
    ⟨"push", 42, "refs/heads/main", "alice",
      [⟨"abc123", "Add column", "adds c", "2021-01-01T00:00:00Z",
        "http://x", "alice",
        ["sql/0004__add_col.sql", "sql/README.md"]⟩]⟩
    rfl rfl (by decide)
  refine ⟨h.1, ?_, ?_⟩
  · rw [h.2.1]
    rfl
  · rw [h.2.2]
    rfl

end Bytebase
